import Mathlib

/-!
Shallow embedding of `src/tema3.cpp`: a console program demonstrating the
prototype (clone), factory method and singleton patterns over a toy
"castle with rooms" model.

Modelling choices, each traced to the source:
* The room hierarchy (`Clona` interface with concrete classes `CameraTron`
  and `Temnita`) is stateless: a live room object is fully determined by its
  dynamic type, so a room value is the inductive `Clona` below.
* `std::unique_ptr<Clona>` is nullable, so a room pointer is `Option Clona`;
  the castle's `std::vector<std::unique_ptr<Clona>>` is `List (Option Clona)`.
* `Castel::info` dereferences every stored pointer; dereferencing a null
  entry is undefined behaviour, modelled by returning `none`.
* The singleton's static slot `std::unique_ptr<Rege> Rege::instanta` is an
  `Option Rege` threaded explicitly; `getInstance` returns the updated slot
  together with the instance the returned reference denotes.
* `main`'s menu loop reads one `int` per iteration from `std::cin`; a run is
  a function of the list of integers read.  When the input list is exhausted
  before option 4 is chosen, extraction from the failed stream leaves
  `optiune = 0` forever and the loop never terminates; this (and undefined
  behaviour) is modelled by the run returning `none`.
-/

/-- The stateless room variants: classes `CameraTron` and `Temnita`, both
deriving from the cloneable interface `Clona` (lines 29-42 of the source). -/
inductive Clona where
  | cameraTron : Clona
  | temnita : Clona
deriving DecidableEq, Repr

/-- `info()` of each concrete room class: the fixed text fragment it prints
(`CameraTron::info`, line 31; `Temnita::info`, line 39). -/
def Clona.info : Clona → String
  | .cameraTron => "camera tronului, "
  | .temnita => "temnita, "

/-- `Camera<Derivata>::clone` (line 22): `make_unique<Derivata>` applied to a
copy of `*this`, i.e. a fresh object of the same concrete class.  Rooms carry
no state, so the fresh object is determined by the variant. -/
def Clona.clone : Clona → Clona
  | .cameraTron => .cameraTron
  | .temnita => .temnita

/-- `Castel`'s field `std::vector<std::unique_ptr<Clona>> camere` (line 48):
an ordered sequence of owned, possibly-null room pointers. -/
abbrev Castel := List (Option Clona)

/-- `Castel::adaugaCamera` (line 52): `camere.push_back(std::move(camera))`,
appending the given (possibly null) pointer at the end. -/
def Castel.adaugaCamera (camere : Castel) (camera : Option Clona) : Castel :=
  camere ++ [camera]

/-- The room fragments printed by the loop in `Castel::info` (lines 57-59):
each stored pointer is dereferenced and its `info()` printed in order.
Dereferencing a null entry is undefined behaviour, modelled as `none`. -/
def roomsInfo : List (Option Clona) → Option String
  | [] => some ""
  | none :: _ => none
  | some camera :: rest => (roomsInfo rest).map (fun s => camera.info ++ s)

/-- `Castel::info` (lines 55-61): prints `"Castelul are: "`, then every
room's fragment in storage order, then a newline. -/
def Castel.info (camere : Castel) : Option String :=
  (roomsInfo camere).map (fun s => "Castelul are: " ++ s ++ "\n")

/-- `CameraFactory::TipCamera::CAMERA_TRON` (line 67), with its underlying
enumerator value. The factory's `switch` is over this value, and C++ allows
an enum object to carry values outside the enumerator list. -/
def CameraFactory.CAMERA_TRON : Int := 0

/-- `CameraFactory::TipCamera::TEMNITA` (line 67), underlying value 1. -/
def CameraFactory.TEMNITA : Int := 1

/-- `CameraFactory::creareCamera` (lines 71-80): `switch` on the
discriminant; the two valid kinds yield a fresh room, the `default` branch
returns `nullptr`. -/
def CameraFactory.creareCamera (tip : Int) : Option Clona :=
  if tip = CameraFactory.CAMERA_TRON then some Clona.cameraTron
  else if tip = CameraFactory.TEMNITA then some Clona.temnita
  else none

/-- The singleton class `Rege` (lines 84-114): it owns exactly one `Castel`. -/
structure Rege where
  castel : Castel
deriving DecidableEq, Repr

/-- `Rege::getInstance` (lines 100-105) acting on the static slot
`Rege::instanta` (line 117, initially null): if the slot is empty a fresh
`Rege` (with a default-constructed empty castle) is installed; the returned
pair is the updated slot and the instance the returned `Rege&` denotes,
which is always the content of the slot. -/
def Rege.getInstance (instanta : Option Rege) : Option Rege × Rege :=
  match instanta with
  | none => (some ⟨[]⟩, ⟨[]⟩)
  | some r => (some r, r)

/-- `Rege::adaugaCameraCastel` (lines 107-109): forwards to
`castel.adaugaCamera`. -/
def Rege.adaugaCameraCastel (r : Rege) (camera : Option Clona) : Rege :=
  { r with castel := Castel.adaugaCamera r.castel camera }

/-- `Rege::infoCastel` (lines 111-113): forwards to `castel.info`. -/
def Rege.infoCastel (r : Rege) : Option String :=
  Castel.info r.castel

/-- The five menu lines printed at the top of every loop iteration
(lines 126-130). -/
def menuText : String :=
  "1. Adauga o camera a tronului\n" ++
  "2. Adauga o temnita\n" ++
  "3. Descrie castel\n" ++
  "4. Incheiere operatiune\n" ++
  "Alege o optiune: "

/-- The `while (optiune != 4)` loop of `main` (lines 125-151), as a function
of the integers successively read by `std::cin >> optiune`.  Each iteration
prints the menu, reads a choice and dispatches on the `switch`; choice 4
prints the exit message and ends the loop.  `none` means the run does not
terminate normally: either the input is exhausted (the failed extraction
pins `optiune` at 0 and the loop spins forever) or `Castel::info` hits
undefined behaviour on a null entry. -/
def mainLoop : List Int → Castel → String → Option (Castel × String)
  | [], _, _ => none
  | optiune :: rest, castel, out =>
    let out := out ++ menuText
    if optiune = 1 then
      mainLoop rest
        (Castel.adaugaCamera castel
          (CameraFactory.creareCamera CameraFactory.CAMERA_TRON))
        (out ++ "Camera tronului adaugata.\n")
    else if optiune = 2 then
      mainLoop rest
        (Castel.adaugaCamera castel
          (CameraFactory.creareCamera CameraFactory.TEMNITA))
        (out ++ "Temnita adaugata.\n")
    else if optiune = 3 then
      match Castel.info castel with
      | none => none
      | some s => mainLoop rest castel (out ++ s)
    else if optiune = 4 then
      some (castel, out ++ "Iesire program.\n")
    else
      mainLoop rest castel (out ++ "Optiunea nu se afla in meniu.\n")

/-- `main` (lines 119-154): obtains the singleton (whose castle starts
empty), runs the menu loop on the given input integers and, on normal
termination, returns the final castle contents, the complete standard
output, and exit status 0 (`return 0`, line 153). -/
def mainRun (inputs : List Int) : Option (Castel × String × Int) :=
  let rege := (Rege.getInstance none).2
  (mainLoop inputs rege.castel "").map (fun p => (p.1, p.2, 0))

/-! ## Helper lemmas -/

/-- Appending rooms one by one with `adaugaCamera` appends the whole list. -/
theorem foldl_adaugaCamera (acc : Castel) (xs : List (Option Clona)) :
    List.foldl Castel.adaugaCamera acc xs = acc ++ xs := by
  induction xs generalizing acc with
  | nil => simp
  | cons x xs ih => simp [Castel.adaugaCamera, ih]

/-- On a sequence with no null entry, `roomsInfo` concatenates the
fragments of the stored rooms in order. -/
theorem roomsInfo_map_some (rs : List Clona) :
    roomsInfo (rs.map some)
      = some ((rs.map Clona.info).foldr (fun a b => a ++ b) "") := by
  induction rs with
  | nil => rfl
  | cons r rs ih => simp [roomsInfo, ih]

/-- A sequence without null entries always has a defined description. -/
theorem roomsInfo_isSome (l : List (Option Clona))
    (h : (none : Option Clona) ∉ l) : ∃ s, roomsInfo l = some s := by
  induction l with
  | nil => exact ⟨"", rfl⟩
  | cons x xs ih =>
    cases x with
    | none => simp at h
    | some r =>
      obtain ⟨s, hs⟩ := ih (fun hm => h (List.mem_cons_of_mem _ hm))
      exact ⟨r.info ++ s, by simp [roomsInfo, hs]⟩

/-! ## Claims -/

set_option maxRecDepth 100000 in
/-- C1: for the menu input sequence 1, 2, 1, 3, 4 the describe step prints
exactly "Castelul are: camera tronului, temnita, camera tronului, " followed
by a newline, and the program then terminates (exit status 0).  The first
conjunct is the describe step itself, applied to the castle as it stands at
input 3; the second is the whole run, whose standard output contains that
describe line and nothing else at that step. -/
theorem c1_scenario_1_2_1_3_4 :
    Castel.info [some Clona.cameraTron, some Clona.temnita, some Clona.cameraTron]
      = some "Castelul are: camera tronului, temnita, camera tronului, \n"
    ∧ mainRun [1, 2, 1, 3, 4]
      = some ([some Clona.cameraTron, some Clona.temnita, some Clona.cameraTron],
          menuText ++ "Camera tronului adaugata.\n"
            ++ (menuText ++ "Temnita adaugata.\n")
            ++ (menuText ++ "Camera tronului adaugata.\n")
            ++ (menuText ++ "Castelul are: camera tronului, temnita, camera tronului, \n")
            ++ (menuText ++ "Iesire program.\n"), 0) := by
  constructor
  · rfl
  · rfl

/-- C2: for each of the two valid discriminants, the factory produces a room
(not null) whose describe output is the fixed label of that kind:
"camera tronului, " for CAMERA_TRON and "temnita, " for TEMNITA. -/
theorem c2_factory_labels :
    (CameraFactory.creareCamera CameraFactory.CAMERA_TRON).map Clona.info
      = some "camera tronului, "
    ∧ (CameraFactory.creareCamera CameraFactory.TEMNITA).map Clona.info
      = some "temnita, " := by
  constructor <;> rfl

/-- C3: `Castel::info` prints "Castelul are: " followed by each owned room's
fragment in insertion order, terminated by a newline; for an empty castle it
prints exactly "Castelul are: " and the newline; `adaugaCamera` appends at
the end and always succeeds, so after any sequence of additions the
fragments appear in the order the rooms were added. -/
theorem c3_describe_insertion_order :
    (∀ rs : List Clona,
      Castel.info (List.foldl Castel.adaugaCamera [] (rs.map some))
        = some ("Castelul are: "
            ++ (rs.map Clona.info).foldr (fun a b => a ++ b) "" ++ "\n"))
    ∧ Castel.info [] = some "Castelul are: \n"
    ∧ ∀ (c : Castel) (camera : Option Clona),
        Castel.adaugaCamera c camera = c ++ [camera] := by
  refine ⟨fun rs => ?_, rfl, fun c camera => rfl⟩
  rw [foldl_adaugaCamera, List.nil_append, Castel.info, roomsInfo_map_some]
  rfl

/-- C4: cloning any room yields a room of the same variant (here: the very
same value, since rooms carry no state beyond their variant) whose describe
output is identical to the source's.  Independence of the clone from the
source is vacuous: the variants have no mutable state to share, exactly as
the spec notes. -/
theorem c4_clone_identical (c : Clona) :
    Clona.clone c = c ∧ (Clona.clone c).info = c.info := by
  cases c <;> exact ⟨rfl, rfl⟩

/-- C5: for any discriminant other than the two valid kinds, the factory's
`switch` falls into the `default` branch and returns the null pointer — an
absent result rather than a failure.  The embedding of `creareCamera` is a
pure function of its argument, matching the method's lack of side effects
(it touches no object state). -/
theorem c5_factory_invalid (tip : Int)
    (h1 : tip ≠ CameraFactory.CAMERA_TRON)
    (h2 : tip ≠ CameraFactory.TEMNITA) :
    CameraFactory.creareCamera tip = none := by
  simp [CameraFactory.creareCamera, h1, h2]

/-- C5 witness: discriminant 5 is neither valid kind and yields no room. -/
theorem c5_factory_invalid_witness :
    CameraFactory.creareCamera 5 = none :=
  c5_factory_invalid 5 (by decide) (by decide)

/-- Appending a non-null room preserves absence of null entries. -/
theorem no_null_append_some (c : Castel) (r : Clona)
    (hc : (none : Option Clona) ∉ c) :
    (none : Option Clona) ∉ c ++ [some r] := by
  simp [List.mem_append, hc]

/-- Every castle state the menu loop can produce from a null-free castle is
null-free: the loop only ever appends factory output for the two valid
kinds, which is never null. -/
theorem mainLoop_no_null (inputs : List Int) :
    ∀ (castel : Castel) (out : String) (res : Castel × String),
      (none : Option Clona) ∉ castel → mainLoop inputs castel out = some res →
      (none : Option Clona) ∉ res.1 := by
  induction inputs with
  | nil =>
    intro castel out res _ h
    simp [mainLoop] at h
  | cons i rest ih =>
    intro castel out res hc h
    by_cases h1 : i = 1
    · simp only [mainLoop, h1, if_pos] at h
      exact ih _ _ res (no_null_append_some castel Clona.cameraTron hc) h
    · by_cases h2 : i = 2
      · simp only [mainLoop, h1, h2, if_neg, if_pos] at h
        exact ih _ _ res (no_null_append_some castel Clona.temnita hc) h
      · by_cases h3 : i = 3
        · obtain ⟨s, hs⟩ := roomsInfo_isSome castel hc
          simp only [mainLoop, h1, h2, h3, if_neg, if_pos, Castel.info, hs,
            Option.map] at h
          exact ih _ _ res hc h
        · by_cases h4 : i = 4
          · simp only [mainLoop, h1, h2, h3, h4, if_neg, if_pos] at h
            obtain ⟨rfl, -⟩ := Prod.mk.injEq .. ▸ Option.some.inj h
            exact hc
          · simp only [mainLoop, h1, h2, h3, h4, if_neg] at h
            exact ih _ _ res hc h

/-- C6 counterexample: `adaugaCamera` does not preserve the no-null
invariant for every call.  `push_back` stores whatever pointer it is handed:
called on the empty (null-free) castle with a null pointer — exactly what
`creareCamera`'s `default` branch produces — it stores a null entry. -/
theorem c6_counterexample :
    ¬ (∀ (c : Castel) (camera : Option Clona),
        (none : Option Clona) ∉ c →
        (none : Option Clona) ∉ Castel.adaugaCamera c camera) := by
  intro h
  have h2 := h [] none (by simp)
  simp [Castel.adaugaCamera] at h2

/-- C6 amended: `adaugaCamera` preserves the no-null invariant whenever the
pointer it is handed is non-null, and in the program every pointer the menu
loop hands it is non-null (factory output for a valid kind), so every castle
state reachable from `main`'s initial empty castle is null-free. -/
theorem c6_no_null_invariant :
    (∀ (c : Castel) (camera : Option Clona), (none : Option Clona) ∉ c →
        camera ≠ none → (none : Option Clona) ∉ Castel.adaugaCamera c camera)
    ∧ ∀ (inputs : List Int) (res : Castel × String),
        mainLoop inputs [] "" = some res → (none : Option Clona) ∉ res.1 := by
  constructor
  · intro c camera hc hcam
    cases camera with
    | none => exact absurd rfl hcam
    | some r => exact no_null_append_some c r hc
  · intro inputs res h
    exact mainLoop_no_null inputs [] "" res (by simp) h

set_option maxRecDepth 100000 in
/-- C6 witness: the amended theorem applied to concrete inputs — appending a
throne room to the empty castle, and the run on inputs 1, 4. -/
theorem c6_no_null_invariant_witness :
    (none : Option Clona) ∉ Castel.adaugaCamera [] (some Clona.cameraTron)
    ∧ (none : Option Clona) ∉ ([some Clona.cameraTron] : Castel) :=
  ⟨c6_no_null_invariant.1 [] (some Clona.cameraTron) (by simp) (by simp),
   c6_no_null_invariant.2 [1, 4]
     ([some Clona.cameraTron],
       "" ++ menuText ++ "Camera tronului adaugata.\n"
         ++ menuText ++ "Iesire program.\n")
     (by rfl)⟩

/-- C7: the singleton contract of `Rege`.  First conjunct: the reference
`getInstance` returns always denotes the content of the static slot, so
every caller gets the one stored instance (at most one `Rege` exists).
Second: calling `getInstance` again on the resulting slot changes nothing
and returns the same instance (identity across repeated calls).  Third: a
room added through the reference obtained from one `getInstance` call is
visible when the castle is described through the reference obtained from a
later `getInstance` call. -/
theorem c7_singleton_identity :
    (∀ s : Option Rege, (Rege.getInstance s).1 = some (Rege.getInstance s).2)
    ∧ (∀ s : Option Rege,
        Rege.getInstance (Rege.getInstance s).1 = Rege.getInstance s)
    ∧ ∀ (s : Option Rege) (camera : Option Clona),
        (Rege.getInstance
            (some ((Rege.getInstance s).2.adaugaCameraCastel camera))).2.infoCastel
          = Castel.info
              (Castel.adaugaCamera (Rege.getInstance s).2.castel camera) := by
  refine ⟨fun s => ?_, fun s => ?_, fun s camera => ?_⟩ <;>
    cases s <;>
      simp [Rege.getInstance, Rege.adaugaCameraCastel, Rege.infoCastel]

/-- C8: on an integer menu choice outside 1-4, the iteration prints the
invalid-option message, leaves the castle unchanged, and the loop continues
with the next read (re-prompting with the menu). -/
theorem c8_invalid_option (i : Int) (inputs : List Int) (castel : Castel)
    (out : String) (h1 : i ≠ 1) (h2 : i ≠ 2) (h3 : i ≠ 3) (h4 : i ≠ 4) :
    mainLoop (i :: inputs) castel out
      = mainLoop inputs castel
          (out ++ menuText ++ "Optiunea nu se afla in meniu.\n") := by
  simp [mainLoop, h1, h2, h3, h4]

/-- C8 witness: choice 5 on the empty castle. -/
theorem c8_invalid_option_witness :
    mainLoop [5, 4] [] ""
      = mainLoop [4] [] ("" ++ menuText ++ "Optiunea nu se afla in meniu.\n") :=
  c8_invalid_option 5 [4] [] "" (by decide) (by decide) (by decide) (by decide)

/-- The menu loop run on a null-free castle stops at the first 4 in the
input: whatever follows that 4 is never read, and the final output ends with
the menu prompt of the last iteration followed by the exit message. -/
theorem mainLoop_stops_at_4 (pre : List Int) :
    ∀ (post : List Int) (castel : Castel) (out : String),
      (none : Option Clona) ∉ castel → (4 : Int) ∉ pre →
      mainLoop (pre ++ 4 :: post) castel out = mainLoop (pre ++ [4]) castel out
      ∧ ∃ c o, mainLoop (pre ++ [4]) castel out
          = some (c, o ++ menuText ++ "Iesire program.\n") := by
  induction pre with
  | nil =>
    intro post castel out _ _
    exact ⟨rfl, castel, out, rfl⟩
  | cons i pre ih =>
    intro post castel out hc hpre
    have hi : i ≠ 4 := fun h => hpre (h ▸ List.mem_cons_self i pre)
    have hpre' : (4 : Int) ∉ pre := fun h => hpre (List.mem_cons_of_mem i h)
    by_cases h1 : i = 1
    · have := ih post (castel ++ [some Clona.cameraTron])
        (out ++ menuText ++ "Camera tronului adaugata.\n")
        (no_null_append_some castel Clona.cameraTron hc) hpre'
      simpa [mainLoop, h1, Castel.adaugaCamera, CameraFactory.creareCamera,
        CameraFactory.CAMERA_TRON, CameraFactory.TEMNITA] using this
    · by_cases h2 : i = 2
      · have := ih post (castel ++ [some Clona.temnita])
          (out ++ menuText ++ "Temnita adaugata.\n")
          (no_null_append_some castel Clona.temnita hc) hpre'
        simpa [mainLoop, h1, h2, Castel.adaugaCamera, CameraFactory.creareCamera,
          CameraFactory.CAMERA_TRON, CameraFactory.TEMNITA] using this
      · by_cases h3 : i = 3
        · obtain ⟨s, hs⟩ := roomsInfo_isSome castel hc
          have := ih post castel
            (out ++ menuText ++ ("Castelul are: " ++ s ++ "\n")) hc hpre'
          simpa [mainLoop, h1, h2, h3, hi, Castel.info, hs] using this
        · have := ih post castel
            (out ++ menuText ++ "Optiunea nu se afla in meniu.\n") hc hpre'
          simpa [mainLoop, h1, h2, h3, hi] using this

/-- C9: for every finite input sequence containing choice 4, the run
terminates at the first occurrence of 4: the choices after it are never
read, the exit message is printed, and the process exits with status 0. -/
theorem c9_terminates_at_first_4 (pre post : List Int)
    (hpre : (4 : Int) ∉ pre) :
    mainRun (pre ++ 4 :: post) = mainRun (pre ++ [4])
    ∧ ∃ c o, mainRun (pre ++ 4 :: post)
        = some (c, o ++ menuText ++ "Iesire program.\n", 0) := by
  obtain ⟨heq, c, o, ho⟩ := mainLoop_stops_at_4 pre post [] "" (by simp) hpre
  constructor
  · show (mainLoop (pre ++ 4 :: post) [] "").map _
      = (mainLoop (pre ++ [4]) [] "").map _
    rw [heq]
  · exact ⟨c, o, by
      show (mainLoop (pre ++ 4 :: post) [] "").map _ = _
      rw [heq, ho]
      rfl⟩

set_option maxRecDepth 100000 in
/-- C9 witness: inputs 1, 4, 7 — the trailing 7 is never read and the run
ends with the exit message and status 0. -/
theorem c9_terminates_at_first_4_witness :
    mainRun [1, 4, 7] = mainRun [1, 4]
    ∧ ∃ c o, mainRun [1, 4, 7]
        = some (c, o ++ menuText ++ "Iesire program.\n", 0) :=
  c9_terminates_at_first_4 [1] [7] (by decide)

/-- C10: the program is deterministic.  Every observable of a run — the
complete standard output, the final castle contents and the exit status —
is a function `mainRun` of the sequence of integers read from standard
input (the source consults no clock, randomness or environment), so two
runs fed the same choices produce identical results. -/
theorem c10_deterministic (inputs : List Int)
    (r1 r2 : Option (Castel × String × Int))
    (h1 : mainRun inputs = r1) (h2 : mainRun inputs = r2) : r1 = r2 := by
  rw [← h1, ← h2]

set_option maxRecDepth 100000 in
/-- C10 witness: two runs on the input sequence 4 agree. -/
theorem c10_deterministic_witness :
    (some (([] : Castel), "" ++ menuText ++ "Iesire program.\n", 0)
        : Option (Castel × String × Int))
      = some (([] : Castel), "" ++ menuText ++ "Iesire program.\n", 0) :=
  c10_deterministic [4] _ _ rfl rfl
